import Mathlib

/-!
Verification of the Aico_emotion face-perception pipeline
(`src/perception/human_face.py` and `src/affect/state.py`).

The Python pipeline is shallowly embedded: probabilities and VAD
coordinates become rationals, Python dictionaries become association
lists with unique keys, caught exceptions become `Except` values, and
the fallible external subsystems (face detector, FER classifier,
landmarker) become explicit inputs so that the orchestration logic of
the source is itself a pure, executable Lean function.
-/

namespace Aico

/-- An emotion distribution: the `emotions` dictionary returned by
`FER.detect_emotions`, as an insertion-ordered association list
(Python dict keys are unique). -/
abbrev Dist := List (String × ℚ)

/-- Python exceptions that can escape the modelled code paths. -/
inductive PyErr where
  | assertionError
  | valueError
  | keyError
  | initError
  | ferInitError
deriving DecidableEq

/-- A face bounding box `(x, y, w, h)` in pixel space, as produced by
`_detect_faces_mediapipe` / `_detect_faces_haar`. -/
structure BBox where
  x : Int
  y : Int
  w : Int
  h : Int
deriving DecidableEq

/-- The clamping performed on one raw detection in
`VisionPerceptor._detect_faces_mediapipe` (both the tasks-API branch
and the legacy branch apply the same four lines after converting the
raw box to integers):
`x = max(0, x); y = max(0, y); width = min(width, w - x);
height = min(height, h - y)`. -/
def clampBoxMp (W H rx ry rw rh : Int) : BBox :=
  let x := max 0 rx
  let y := max 0 ry
  ⟨x, y, min rw (W - x), min rh (H - y)⟩

/-- Embedding of `VisionPerceptor._detect_faces_mediapipe`, as a function of the
frame dimensions and the raw integer boxes extracted from the
detector result. -/
def detectFacesMediapipe (W H : Int) (raw : List (Int × Int × Int × Int)) : List BBox :=
  raw.map (fun r => clampBoxMp W H r.1 r.2.1 r.2.2.1 r.2.2.2)

/-- Embedding of `VisionPerceptor._detect_faces_haar`: the cascade output is cast
to `int` per coordinate and returned with no clamping. -/
def detectFacesHaar (raw : List (Int × Int × Int × Int)) : List BBox :=
  raw.map (fun r => ⟨r.1, r.2.1, r.2.2.1, r.2.2.2⟩)

/-- Python `dict.get(k)` on an association list: the value of the
first (unique) binding of `k`, if any. -/
def dictGet? (l : Dist) (k : String) : Option ℚ :=
  (l.find? (fun p => p.1 == k)).map Prod.snd

/-- Python `max(emotions, key=emotions.get)` on a dict with unique
keys: the first binding holding the maximal value (Python `max` keeps
the earlier element on ties). -/
def pyMaxByVal : Dist → Option (String × ℚ)
  | [] => none
  | p :: ps => some (ps.foldl (fun cur q => if cur.2 < q.2 then q else cur) p)

/-- The default VAD coordinate used by the perceptor when the dominant
label is absent from `EMOTION_TO_VAD` (the literal
`(0.0, 0.5, 0.0)` at `human_face.py:520`). -/
def visionVadDefault : ℚ × ℚ × ℚ := (0, 0.5, 0)

/-- The seven emotion labels of `VisionPerceptor.EMOTION_TO_VAD`. -/
def emotionVocab : List String :=
  [("happy"), ("sad"), ("angry"), ("neutral"), ("surprise"), ("fear"), ("disgust")]

/-- Embedding of `self.EMOTION_TO_VAD.get(dominant_emotion, (0.0, 0.5, 0.0))`:
lookup in the class-level table of `VisionPerceptor`
(`human_face.py:91-99`) with the default for unrecognized labels. -/
def visionEmotionToVad (l : String) : ℚ × ℚ × ℚ :=
  if l = "happy" then (0.8, 0.7, 0.5)
  else if l = "sad" then (-0.7, 0.3, -0.3)
  else if l = "angry" then (-0.8, 0.9, 0.7)
  else if l = "neutral" then (0, 0.4, 0)
  else if l = "surprise" then (0.4, 0.9, -0.2)
  else if l = "fear" then (-0.6, 0.8, -0.5)
  else if l = "disgust" then (-0.6, 0.5, 0.2)
  else visionVadDefault

/-- The seven VAD coordinates stored in the table. -/
def visionVadValues : List (ℚ × ℚ × ℚ) :=
  [(0.8, 0.7, 0.5), (-0.7, 0.3, -0.3), (-0.8, 0.9, 0.7), (0, 0.4, 0),
   (0.4, 0.9, -0.2), (-0.6, 0.8, -0.5), (-0.6, 0.5, 0.2)]

/-- Embedding of `EmotionCategory` from `src/affect/state.py`. -/
inductive EmotionCategory where
  | happy
  | sad
  | angry
  | neutral
  | surprise
  | fear
  | disgust
deriving DecidableEq, BEq

/-- The string value of each `EmotionCategory` member. -/
def EmotionCategory.value : EmotionCategory → String
  | .happy => "happy"
  | .sad => "sad"
  | .angry => "angry"
  | .neutral => "neutral"
  | .surprise => "surprise"
  | .fear => "fear"
  | .disgust => "disgust"

/-- The module-level `EMOTION_TO_VAD` dict of `src/affect/state.py`
(lines 192-200), enum-keyed. -/
def affectVadTable : List (EmotionCategory × (ℚ × ℚ × ℚ)) :=
  [(.happy, (0.8, 0.7, 0.5)), (.sad, (-0.7, 0.3, -0.3)), (.angry, (-0.8, 0.9, 0.7)),
   (.neutral, (0, 0.4, 0)), (.surprise, (0.4, 0.9, -0.2)), (.fear, (-0.6, 0.8, -0.5)),
   (.disgust, (-0.6, 0.5, 0.2))]

/-- The default coordinate in `emotion_to_vad`
(`EMOTION_TO_VAD.get(emotion, (0.0, 0.5, 0.0))`, `state.py:212`). -/
def affectVadDefault : ℚ × ℚ × ℚ := (0, 0.5, 0)

/-- Embedding of `emotion_to_vad` from `src/affect/state.py:203-212`. -/
def emotion_to_vad (e : EmotionCategory) : ℚ × ℚ × ℚ :=
  ((affectVadTable.find? (fun p => p.1 == e)).map Prod.snd).getD affectVadDefault

/-- The constructor-time configuration of `VisionPerceptor` that the
per-frame pipeline reads: the resolved detector choice
(`self.use_mediapipe`), the landmarker toggle (`self.use_landmarks`)
and the emotion-confidence threshold (`self.min_confidence`). -/
structure Config where
  useMediapipe : Bool
  useLandmarks : Bool
  minConfidence : ℚ
deriving DecidableEq

/-- The detector-identity string written into percept metadata:
`"mediapipe" if self.use_mediapipe else "haar"`. -/
def detectorName (cfg : Config) : String :=
  if cfg.useMediapipe then "mediapipe" else "haar"

/-- The `metadata` dictionary attached to a `Percept` by `perceive` /
`perceive_all_faces`.  `numFaces` is present only in single-face mode,
`faceIndex`/`totalFaces` only in multi-face mode; `hasLandmarks`
records whether the landmark/blendshape keys were added. -/
structure Meta where
  dominantEmotion : String
  allEmotions : Dist
  boundingBox : BBox
  numFaces : Option Nat
  faceIndex : Option Nat
  totalFaces : Option Nat
  detector : String
  hasLandmarks : Bool
deriving DecidableEq

/-- Embedding of `Percept` from `src/affect/state.py` (timestamp omitted: wall-clock
time is outside the embedding). -/
structure Percept where
  source : String
  valenceHint : ℚ
  arousalHint : ℚ
  dominanceHint : ℚ
  confidence : ℚ
  metadata : Meta
deriving DecidableEq

/-- Embedding of `Percept(...)` construction including the four range assertions of
`Percept.__post_init__` (`state.py:113-118`); a failing assertion is
an escaping `AssertionError`. -/
def mkPercept (src : String) (v a d c : ℚ) (m : Meta) : Except PyErr Percept :=
  if -1 ≤ v ∧ v ≤ 1 then
    if 0 ≤ a ∧ a ≤ 1 then
      if -1 ≤ d ∧ d ≤ 1 then
        if 0 ≤ c ∧ c ≤ 1 then .ok ⟨src, v, a, d, c, m⟩
        else .error .assertionError
      else .error .assertionError
    else .error .assertionError
  else .error .assertionError

/-- The metadata fields that are fixed before the dominant emotion and
distribution are known. -/
structure MetaBase where
  boundingBox : BBox
  numFaces : Option Nat
  faceIndex : Option Nat
  totalFaces : Option Nat
  detector : String
  hasLandmarks : Bool
deriving DecidableEq

/-- Fill in the dominant label and full distribution. -/
def MetaBase.toMeta (mb : MetaBase) (dom : String) (emotions : Dist) : Meta :=
  ⟨dom, emotions, mb.boundingBox, mb.numFaces, mb.faceIndex, mb.totalFaces,
   mb.detector, mb.hasLandmarks⟩

/-- The shared tail of both pipeline entry points once a non-empty
classifier result is at hand (`human_face.py:504-549` and `620-668`):
`dominant_emotion = max(emotions, key=emotions.get)` (`ValueError` on
an empty dict), `confidence = emotions[dominant_emotion]`, the
inclusive threshold test `confidence < self.min_confidence`, the VAD
table lookup, and `Percept(...)` assembly. -/
def assembleFromEmotions (cfg : Config) (emotions : Dist) (mb : MetaBase) :
    Except PyErr (Option Percept) :=
  match pyMaxByVal emotions with
  | none => .error .valueError
  | some dom =>
    match dictGet? emotions dom.1 with
    | none => .error .keyError
    | some conf =>
      if conf < cfg.minConfidence then .ok none
      else
        match mkPercept ("vision") (visionEmotionToVad dom.1).1
            (visionEmotionToVad dom.1).2.1 (visionEmotionToVad dom.1).2.2 conf
            (mb.toMeta dom.1 emotions) with
        | .error e => .error e
        | .ok p => .ok (some p)

/-- The single-face metadata skeleton built by `perceive`
(`human_face.py:524-537`): bounding box of the first face, `num_faces`
equals the full located-face count, detector identity, and landmark
keys exactly when `use_landmarks` holds and the landmarker returned a
non-empty list. -/
def singleMetaBase (cfg : Config) (faces : List BBox) (f0 : BBox)
    (lm : Option (List Unit)) : MetaBase :=
  ⟨f0, some faces.length, none, none, detectorName cfg,
   cfg.useLandmarks && (match lm with | some (_ :: _) => true | _ => false)⟩

/-- Embedding of `VisionPerceptor.perceive` on a supplied frame, as a function of
the located faces (`faces`), the landmarker result (`lm`, `none` when
`_analyze_face_landmarks` returned `None`), the classifier result on
the tight crop (`cc`) and on the full preprocessed frame (`cf`, used
only by the single retry).  `.error` inputs model
`detect_emotions` raising; both such exceptions are caught and yield
`None`. -/
def perceive (cfg : Config) (faces : List BBox) (lm : Option (List Unit))
    (cc cf : Except Unit (List Dist)) : Except PyErr (Option Percept) :=
  match faces with
  | [] => .ok none
  | f0 :: _ =>
    match cc with
    | .error _ => .ok none
    | .ok el =>
      match el with
      | [] =>
        match cf with
        | .error _ => .ok none
        | .ok [] => .ok none
        | .ok (d :: _) => assembleFromEmotions cfg d (singleMetaBase cfg faces f0 lm)
      | d :: _ => assembleFromEmotions cfg d (singleMetaBase cfg faces f0 lm)

/-- The multi-face metadata skeleton for face `idx`
(`human_face.py:641-656`): its own box, `face_index`, `total_faces`,
detector identity, and landmark keys exactly when the landmarker list
is truthy (non-empty) and `idx` is within it. -/
def faceMetaBase (cfg : Config) (total : Nat) (lm : Option (List Unit))
    (idx : Nat) (b : BBox) : MetaBase :=
  ⟨b, none, some idx, some total, detectorName cfg,
   match lm with
   | some l => !l.isEmpty && decide (idx < l.length)
   | none => false⟩

/-- The body of the per-face loop of `perceive_all_faces`
(`human_face.py:602-668`): a caught classifier exception or an empty
classifier result contributes `None` for this slot (no retry); a
non-empty result goes through the shared classification tail. -/
def perceiveOneFace (cfg : Config) (total : Nat) (lm : Option (List Unit))
    (classify : BBox → Except Unit (List Dist)) (idx : Nat) (b : BBox) :
    Except PyErr (Option Percept) :=
  match classify b with
  | .error _ => .ok none
  | .ok [] => .ok none
  | .ok (d :: _) => assembleFromEmotions cfg d (faceMetaBase cfg total lm idx b)

/-- The `for face_idx, (x, y, w, h) in enumerate(faces)` loop: one
slot appended per face; an exception escaping a slot aborts the whole
call (losing the list built so far). -/
def perceiveFacesLoop (cfg : Config) (total : Nat) (lm : Option (List Unit))
    (classify : BBox → Except Unit (List Dist)) :
    Nat → List BBox → Except PyErr (List (Option Percept))
  | _, [] => .ok []
  | i, b :: bs =>
    match perceiveOneFace cfg total lm classify i b with
    | .error e => .error e
    | .ok p =>
      match perceiveFacesLoop cfg total lm classify (i + 1) bs with
      | .error e => .error e
      | .ok ps => .ok (p :: ps)

/-- Embedding of `VisionPerceptor.perceive_all_faces` on a supplied frame: empty
located-face list short-circuits to `[]`; otherwise the faces are
truncated to `max_faces`, the landmarker result is consulted only when
`use_landmarks`, and the per-face loop runs over the truncated list. -/
def perceiveAllFaces (cfg : Config) (faces : List BBox) (maxFaces : Nat)
    (lm : Option (List Unit)) (classify : BBox → Except Unit (List Dist)) :
    Except PyErr (List (Option Percept)) :=
  match faces with
  | [] => .ok []
  | _ :: _ =>
    perceiveFacesLoop cfg (faces.take maxFaces).length
      (if cfg.useLandmarks then lm else none) classify 0 (faces.take maxFaces)

/-- How the `try`/`except AttributeError` attempt to build the legacy
`mp.solutions` face detector can end (`human_face.py:129-136`). -/
inductive LegacyOutcome where
  | ok
  | attrError
  | otherError
deriving DecidableEq

/-- The construction-time environment of `VisionPerceptor.__init__`:
availability of the `mediapipe` import, the outcome of the legacy-API
attempt, existence of one of the face-detector model candidates,
success of `FaceDetector.create_from_options`, success of the whole
landmarker setup, and success of `FER(...)`. -/
structure InitEnv where
  mediapipeAvailable : Bool
  legacy : LegacyOutcome
  assetFound : Bool
  tasksCreateOk : Bool
  landmarkerOk : Bool
  ferOk : Bool
deriving DecidableEq

/-- The state held by a constructed `VisionPerceptor` that the claims
touch: resolved toggles, threshold, and the capture handle
(`self.cap`, `none` until a camera is opened; the `Bool` is the
handle's `isOpened`). -/
structure VPState where
  cameraId : Int
  useMediapipe : Bool
  useLandmarks : Bool
  minConfidence : ℚ
  cap : Option Bool
deriving DecidableEq

/-- The `Config` a constructed perceptor feeds to the per-frame code. -/
def VPState.config (s : VPState) : Config :=
  ⟨s.useMediapipe, s.useLandmarks, s.minConfidence⟩

/-- Embedding of `VisionPerceptor.__init__` (`human_face.py:101-231`): the legacy
detector attempt catches only `AttributeError`; inside the tasks-API
attempt every exception (including the `FileNotFoundError` raised when
no model candidate exists) is caught and downgrades to the Haar
strategy; the landmarker attempt never raises; a failing `FER(...)`
constructor re-raises. -/
def initVP (cameraId : Int) (useMp useLm : Bool) (minConf : ℚ) (env : InitEnv) :
    Except PyErr VPState :=
  let useMp0 := useMp && env.mediapipeAvailable
  let detRes : Except PyErr Bool :=
    if useMp0 then
      match env.legacy with
      | .ok => .ok true
      | .otherError => .error .initError
      | .attrError => if env.assetFound && env.tasksCreateOk then .ok true else .ok false
    else .ok false
  match detRes with
  | .error e => .error e
  | .ok useMpFinal =>
    if env.ferOk then
      .ok ⟨cameraId, useMpFinal, (useLm && env.mediapipeAvailable) && env.landmarkerOk,
           minConf, none⟩
    else .error .ferInitError

/-- Embedding of `VisionPerceptor.release` (`human_face.py:720-725`).  The returned
`Bool` records whether the underlying `cv2.VideoCapture.release()` was
actually invoked. -/
def VPState.release (s : VPState) : VPState × Bool :=
  match s.cap with
  | none => (s, false)
  | some _ => ({ s with cap := none }, true)

/-- Embedding of `VisionPerceptor.__exit__` (`human_face.py:731-734`): calls
`release` and returns `False`. -/
def VPState.exitCtx (s : VPState) : (VPState × Bool) × Bool :=
  (s.release, false)

/-- Embedding of `VisionPerceptor.__del__` (`human_face.py:736-738`): calls
`release`. -/
def VPState.delObj (s : VPState) : VPState × Bool :=
  s.release

/-! ### Helper lemmas -/

/-- The running maximum of the `pyMaxByVal` fold is one of its
candidates. -/
theorem foldlMax_mem (l : List (String × ℚ)) (acc : String × ℚ) :
    l.foldl (fun cur q => if cur.2 < q.2 then q else cur) acc ∈ acc :: l := by
  induction l generalizing acc with
  | nil => simp
  | cons a as ih =>
    simp only [List.foldl_cons]
    rcases List.mem_cons.1 (ih (if acc.2 < a.2 then a else acc)) with h | h
    · rw [h]
      split
      · exact List.mem_cons_of_mem _ (List.mem_cons_self _ _)
      · exact List.mem_cons_self _ _
    · exact List.mem_cons_of_mem _ (List.mem_cons_of_mem _ h)

/-- The accumulator value never exceeds the fold result. -/
theorem foldlMax_acc_le (l : List (String × ℚ)) (acc : String × ℚ) :
    acc.2 ≤ (l.foldl (fun cur q => if cur.2 < q.2 then q else cur) acc).2 := by
  induction l generalizing acc with
  | nil => exact le_refl _
  | cons a as ih =>
    simp only [List.foldl_cons]
    refine le_trans ?_ (ih (if acc.2 < a.2 then a else acc))
    split
    · exact le_of_lt (by assumption)
    · exact le_refl _

/-- Every listed value is bounded by the fold result. -/
theorem foldlMax_le (l : List (String × ℚ)) (acc : String × ℚ) :
    ∀ q ∈ l, q.2 ≤ (l.foldl (fun cur q => if cur.2 < q.2 then q else cur) acc).2 := by
  induction l generalizing acc with
  | nil => intro q hq; cases hq
  | cons a as ih =>
    intro q hq
    simp only [List.foldl_cons]
    rcases List.mem_cons.1 hq with rfl | hq
    · refine le_trans ?_ (foldlMax_acc_le as _)
      split
      · exact le_refl _
      · exact le_of_not_lt (by assumption)
    · exact ih _ q hq

/-- The function `pyMaxByVal` returns a binding of the dict. -/
theorem pyMaxByVal_mem {l : Dist} {m : String × ℚ} (h : pyMaxByVal l = some m) :
    m ∈ l := by
  cases l with
  | nil => cases h
  | cons p ps =>
    simp only [pyMaxByVal, Option.some.injEq] at h
    rw [← h]
    exact foldlMax_mem ps p

/-- The function `pyMaxByVal` returns a binding with maximal value. -/
theorem pyMaxByVal_le {l : Dist} {m : String × ℚ} (h : pyMaxByVal l = some m) :
    ∀ q ∈ l, q.2 ≤ m.2 := by
  cases l with
  | nil => cases h
  | cons p ps =>
    simp only [pyMaxByVal, Option.some.injEq] at h
    intro q hq
    rw [← h]
    rcases List.mem_cons.1 hq with rfl | hq
    · exact foldlMax_acc_le ps q
    · exact foldlMax_le ps p q hq

/-- A successful `dictGet?` returns a value actually bound in the
dict, under the requested key. -/
theorem dictGet?_mem {l : Dist} {k : String} {c : ℚ} (h : dictGet? l k = some c) :
    ∃ q ∈ l, q.1 = k ∧ q.2 = c := by
  unfold dictGet? at h
  cases hf : l.find? (fun p => p.1 == k) with
  | none => rw [hf] at h; cases h
  | some q =>
    rw [hf] at h
    simp only [Option.map_some', Option.some.injEq] at h
    have hq := List.find?_some hf
    simp only [beq_iff_eq] at hq
    exact ⟨q, List.mem_of_find?_eq_some hf, hq, h⟩

/-- A key present in the dict is found by `dictGet?`. -/
theorem dictGet?_isSome_of_mem {l : Dist} {m : String × ℚ} (hm : m ∈ l) :
    ∃ c, dictGet? l m.1 = some c := by
  induction l with
  | nil => cases hm
  | cons a as ih =>
    by_cases h : a.1 = m.1
    · exact ⟨a.2, by simp [dictGet?, List.find?, h]⟩
    · rcases List.mem_cons.1 hm with rfl | hm
      · exact absurd rfl h
      · rcases ih hm with ⟨c, hc⟩
        refine ⟨c, ?_⟩
        unfold dictGet? at hc ⊢
        rw [List.find?_cons_of_neg]
        · exact hc
        · simpa using h

/-- With unique keys (the Python dict invariant), `dictGet?` at a
binding's key returns that binding's value. -/
theorem dictGet?_of_nodup {l : Dist} (hnd : (l.map Prod.fst).Nodup)
    {m : String × ℚ} (hm : m ∈ l) : dictGet? l m.1 = some m.2 := by
  induction l with
  | nil => cases hm
  | cons a as ih =>
    rcases List.mem_cons.1 hm with rfl | hm
    · simp [dictGet?, List.find?]
    · have ha : ¬ a.1 = m.1 := by
        intro he
        have h1 : a.1 ∉ as.map Prod.fst := (List.nodup_cons.1 hnd).1
        exact h1 (he ▸ List.mem_map_of_mem Prod.fst hm)
      unfold dictGet?
      rw [List.find?_cons_of_neg]
      · exact ih (List.nodup_cons.1 hnd).2 hm
      · simpa using ha

/-- Every coordinate produced by the perceptor VAD table (default
included) lies in the documented VAD ranges. -/
theorem visionVad_range (l : String) :
    -1 ≤ (visionEmotionToVad l).1 ∧ (visionEmotionToVad l).1 ≤ 1 ∧
    0 ≤ (visionEmotionToVad l).2.1 ∧ (visionEmotionToVad l).2.1 ≤ 1 ∧
    -1 ≤ (visionEmotionToVad l).2.2 ∧ (visionEmotionToVad l).2.2 ≤ 1 := by
  unfold visionEmotionToVad visionVadDefault
  repeat' split
  all_goals norm_num

/-- The perceptor VAD function only ever returns a table entry or the
default coordinate. -/
theorem visionVad_table_or_default (l : String) :
    visionEmotionToVad l ∈ visionVadValues ∨ visionEmotionToVad l = visionVadDefault := by
  unfold visionEmotionToVad visionVadValues
  repeat' split
  all_goals simp

/-- Labels outside the seven-label vocabulary take the default
coordinate. -/
theorem visionVad_default_of_not_mem {l : String} (hl : l ∉ emotionVocab) :
    visionEmotionToVad l = visionVadDefault := by
  simp only [emotionVocab, List.mem_cons, List.not_mem_nil, or_false] at hl
  push_neg at hl
  obtain ⟨h1, h2, h3, h4, h5, h6, h7⟩ := hl
  simp [visionEmotionToVad, h1, h2, h3, h4, h5, h6, h7]

/-- In-range hints make `Percept` construction succeed with exactly
the given fields. -/
theorem mkPercept_ok {src : String} {v a d c : ℚ} {m : Meta}
    (hv : -1 ≤ v ∧ v ≤ 1) (ha : 0 ≤ a ∧ a ≤ 1) (hd : -1 ≤ d ∧ d ≤ 1)
    (hc : 0 ≤ c ∧ c ≤ 1) :
    mkPercept src v a d c m = .ok ⟨src, v, a, d, c, m⟩ := by
  unfold mkPercept
  rw [if_pos hv, if_pos ha, if_pos hd, if_pos hc]

/-- A successfully constructed `Percept` carries exactly the supplied
fields. -/
theorem mkPercept_ok_inv {src : String} {v a d c : ℚ} {m : Meta} {q : Percept}
    (h : mkPercept src v a d c m = .ok q) : q = ⟨src, v, a, d, c, m⟩ := by
  unfold mkPercept at h
  repeat' split at h
  all_goals simp_all

/-- Inversion of a successful assembly: the percept is exactly the
record built from the arg-max binding, the `emotions[dominant]`
lookup, and the metadata skeleton, and the threshold was not tripped. -/
theorem assemble_ok_some_inv {cfg : Config} {emotions : Dist} {mb : MetaBase}
    {p : Percept} (h : assembleFromEmotions cfg emotions mb = .ok (some p)) :
    ∃ dom conf, pyMaxByVal emotions = some dom ∧
      dictGet? emotions dom.1 = some conf ∧ ¬ conf < cfg.minConfidence ∧
      p = ⟨("vision"), (visionEmotionToVad dom.1).1, (visionEmotionToVad dom.1).2.1,
           (visionEmotionToVad dom.1).2.2, conf, mb.toMeta dom.1 emotions⟩ := by
  unfold assembleFromEmotions at h
  split at h
  · cases h
  · rename_i dom hm
    split at h
    · cases h
    · rename_i conf hg
      split at h
      · cases h
      · rename_i hlt
        split at h
        · cases h
        · rename_i q hmk
          simp only [Except.ok.injEq, Option.some.injEq] at h
          exact ⟨dom, conf, hm, hg, hlt, h ▸ mkPercept_ok_inv hmk⟩

/-- Inversion of an assembly that returned `None`: the threshold must
have fired on the `emotions[dominant]` value. -/
theorem assemble_ok_none_inv {cfg : Config} {emotions : Dist} {mb : MetaBase}
    (h : assembleFromEmotions cfg emotions mb = .ok none) :
    ∃ dom conf, pyMaxByVal emotions = some dom ∧
      dictGet? emotions dom.1 = some conf ∧ conf < cfg.minConfidence := by
  unfold assembleFromEmotions at h
  split at h
  · cases h
  · rename_i dom hm
    split at h
    · cases h
    · rename_i conf hg
      split at h
      · rename_i hlt
        exact ⟨dom, conf, hm, hg, hlt⟩
      · split at h
        · cases h
        · cases h

/-- The threshold comparison of the shared tail, in both directions:
at the bound (with in-range confidence) a percept is produced carrying
that confidence; strictly below it the slot is discarded. -/
theorem assemble_threshold (cfg : Config) {emotions : Dist} {k : String} {c : ℚ}
    (mb : MetaBase) (hnd : (emotions.map Prod.fst).Nodup)
    (hmax : pyMaxByVal emotions = some (k, c)) :
    (¬ c < cfg.minConfidence → 0 ≤ c → c ≤ 1 →
      ∃ p, assembleFromEmotions cfg emotions mb = .ok (some p) ∧ p.confidence = c) ∧
    (c < cfg.minConfidence → assembleFromEmotions cfg emotions mb = .ok none) := by
  have hget : dictGet? emotions k = some c := dictGet?_of_nodup hnd (pyMaxByVal_mem hmax)
  constructor
  · intro hge h0 h1
    refine ⟨⟨("vision"), (visionEmotionToVad k).1, (visionEmotionToVad k).2.1,
      (visionEmotionToVad k).2.2, c, mb.toMeta k emotions⟩, ?_, rfl⟩
    unfold assembleFromEmotions
    obtain ⟨r1, r2, r3, r4, r5, r6⟩ := visionVad_range k
    simp only [hmax, hget, if_neg hge,
      mkPercept_ok ⟨r1, r2⟩ ⟨r3, r4⟩ ⟨r5, r6⟩ ⟨h0, h1⟩]
  · intro hlt
    unfold assembleFromEmotions
    simp only [hmax, hget, if_pos hlt]

/-- Inversion of a successful single-face perceive: the located-face
list is non-empty, the classifier result used is the head of the crop
result, or of the full-frame retry when the crop result was empty, and
the percept comes from the shared tail over the single-face metadata
skeleton. -/
theorem perceive_ok_some_inv {cfg : Config} {faces : List BBox}
    {lm : Option (List Unit)} {cc cf : Except Unit (List Dist)} {p : Percept}
    (h : perceive cfg faces lm cc cf = .ok (some p)) :
    ∃ f0 fs d, faces = f0 :: fs ∧
      ((∃ t, cc = .ok (d :: t)) ∨ (cc = .ok [] ∧ ∃ t, cf = .ok (d :: t))) ∧
      assembleFromEmotions cfg d (singleMetaBase cfg faces f0 lm) = .ok (some p) := by
  cases faces with
  | nil => cases h
  | cons f0 fs =>
    cases cc with
    | error e => cases h
    | ok el =>
      cases el with
      | nil =>
        cases cf with
        | error e => cases h
        | ok el2 =>
          cases el2 with
          | nil => cases h
          | cons d t => exact ⟨f0, fs, d, rfl, Or.inr ⟨rfl, t, rfl⟩, h⟩
      | cons d t => exact ⟨f0, fs, d, rfl, Or.inl ⟨t, rfl⟩, h⟩

/-- Inversion of a successful per-face slot: the crop classification
returned a non-empty list whose head fed the shared tail over the
multi-face metadata skeleton. -/
theorem perceiveOneFace_ok_some_inv {cfg : Config} {total : Nat}
    {lm : Option (List Unit)} {classify : BBox → Except Unit (List Dist)}
    {idx : Nat} {b : BBox} {p : Percept}
    (h : perceiveOneFace cfg total lm classify idx b = .ok (some p)) :
    ∃ d t, classify b = .ok (d :: t) ∧
      assembleFromEmotions cfg d (faceMetaBase cfg total lm idx b) = .ok (some p) := by
  unfold perceiveOneFace at h
  cases hc : classify b with
  | error e => rw [hc] at h; cases h
  | ok el =>
    rw [hc] at h
    cases el with
    | nil => cases h
    | cons d t => exact ⟨d, t, rfl, h⟩

/-- Inversion of an absent per-face slot: the classifier raised,
returned an empty list, or the threshold fired. -/
theorem perceiveOneFace_ok_none_inv {cfg : Config} {total : Nat}
    {lm : Option (List Unit)} {classify : BBox → Except Unit (List Dist)}
    {idx : Nat} {b : BBox}
    (h : perceiveOneFace cfg total lm classify idx b = .ok none) :
    (∃ e, classify b = .error e) ∨ classify b = .ok [] ∨
    ∃ d t dom conf, classify b = .ok (d :: t) ∧ pyMaxByVal d = some dom ∧
      dictGet? d dom.1 = some conf ∧ conf < cfg.minConfidence := by
  unfold perceiveOneFace at h
  cases hc : classify b with
  | error e => exact Or.inl ⟨e, rfl⟩
  | ok el =>
    rw [hc] at h
    cases el with
    | nil => exact Or.inr (Or.inl rfl)
    | cons d t =>
      rcases assemble_ok_none_inv h with ⟨dom, conf, h1, h2, h3⟩
      exact Or.inr (Or.inr ⟨d, t, dom, conf, rfl, h1, h2, h3⟩)

/-- Length and per-index characterization of the per-face loop. -/
theorem perceiveFacesLoop_spec (cfg : Config) (total : Nat)
    (lm : Option (List Unit)) (classify : BBox → Except Unit (List Dist)) :
    ∀ (fs : List BBox) (i : Nat) (res : List (Option Percept)),
      perceiveFacesLoop cfg total lm classify i fs = .ok res →
      res.length = fs.length ∧
      ∀ j r, res.get? j = some r → ∃ b, fs.get? j = some b ∧
        perceiveOneFace cfg total lm classify (i + j) b = .ok r := by
  intro fs
  induction fs with
  | nil =>
    intro i res h
    simp only [perceiveFacesLoop] at h
    cases h
    exact ⟨rfl, by intro j r hr; cases hr⟩
  | cons b bs ih =>
    intro i res h
    simp only [perceiveFacesLoop] at h
    cases h1 : perceiveOneFace cfg total lm classify i b with
    | error e => rw [h1] at h; cases h
    | ok p =>
      rw [h1] at h
      cases h2 : perceiveFacesLoop cfg total lm classify (i + 1) bs with
      | error e => rw [h2] at h; cases h
      | ok ps =>
        rw [h2] at h
        cases h
        obtain ⟨hlen, hidx⟩ := ih (i + 1) ps h2
        refine ⟨by simp [hlen], ?_⟩
        intro j r hr
        cases j with
        | zero =>
          simp only [List.get?_cons_zero, Option.some.injEq] at hr
          exact ⟨b, rfl, by rw [Nat.add_zero, ← hr]; exact h1⟩
        | succ j =>
          simp only [List.get?_cons_succ] at hr
          obtain ⟨b2, hb2, hone⟩ := hidx j r hr
          refine ⟨b2, hb2, ?_⟩
          have : i + 1 + j = i + (j + 1) := by omega
          rw [← this]
          exact hone

/-- Unfolding: `perceive_all_faces` is the per-face loop over the truncated
face list. -/
theorem perceiveAllFaces_eq_loop (cfg : Config) (faces : List BBox)
    (maxFaces : Nat) (lm : Option (List Unit))
    (classify : BBox → Except Unit (List Dist)) :
    perceiveAllFaces cfg faces maxFaces lm classify =
      perceiveFacesLoop cfg (faces.take maxFaces).length
        (if cfg.useLandmarks then lm else none) classify 0 (faces.take maxFaces) := by
  cases faces with
  | nil => simp [perceiveAllFaces, perceiveFacesLoop]
  | cons => rfl

/-- Detector identity carried by a single-face percept. -/
theorem perceive_detector {cfg : Config} {faces : List BBox} {lm : Option (List Unit)}
    {cc cf : Except Unit (List Dist)} {p : Percept}
    (h : perceive cfg faces lm cc cf = .ok (some p)) :
    p.metadata.detector = detectorName cfg := by
  obtain ⟨f0, fs, d, hfaces, _, ha⟩ := perceive_ok_some_inv h
  obtain ⟨dom, conf, _, _, _, hp⟩ := assemble_ok_some_inv ha
  subst hp
  rfl

/-- Detector identity carried by every multi-face percept. -/
theorem perceiveAllFaces_detector {cfg : Config} {faces : List BBox} {maxFaces : Nat}
    {lm : Option (List Unit)} {classify : BBox → Except Unit (List Dist)}
    {res : List (Option Percept)} {p : Percept}
    (h : perceiveAllFaces cfg faces maxFaces lm classify = .ok res)
    (hmem : some p ∈ res) : p.metadata.detector = detectorName cfg := by
  rw [perceiveAllFaces_eq_loop] at h
  obtain ⟨_, hidx⟩ := perceiveFacesLoop_spec cfg _ _ classify _ 0 res h
  obtain ⟨j, hj⟩ := List.get?_of_mem hmem
  obtain ⟨b, _, hone⟩ := hidx j _ hj
  obtain ⟨d, t, _, ha⟩ := perceiveOneFace_ok_some_inv hone
  obtain ⟨dom, conf, _, _, _, hp⟩ := assemble_ok_some_inv ha
  subst hp
  rfl

/-- Confidence/arg-max property of a percept produced by the shared
assembly tail, for a distribution with unique keys. -/
theorem assemble_confidence_argmax {cfg : Config} {emotions : Dist} {mb : MetaBase}
    {p : Percept} (hnd : (emotions.map Prod.fst).Nodup)
    (h : assembleFromEmotions cfg emotions mb = .ok (some p)) :
    dictGet? p.metadata.allEmotions p.metadata.dominantEmotion = some p.confidence ∧
    ∀ q ∈ p.metadata.allEmotions, q.2 ≤ p.confidence := by
  obtain ⟨dom, conf, hmax, hget, _, hp⟩ := assemble_ok_some_inv h
  have hdom : dictGet? emotions dom.1 = some dom.2 :=
    dictGet?_of_nodup hnd (pyMaxByVal_mem hmax)
  have hconf : dom.2 = conf := by
    rw [hdom] at hget
    injection hget
  subst hp
  refine ⟨hget, ?_⟩
  intro q hq
  exact le_of_le_of_eq (pyMaxByVal_le hmax q hq) hconf

/-- No assertion fires in the shared assembly tail when every
probability of the distribution is in `[0, 1]`. -/
theorem assemble_no_assert {cfg : Config} {emotions : Dist} {mb : MetaBase}
    (hq : ∀ q ∈ emotions, 0 ≤ q.2 ∧ q.2 ≤ 1) :
    assembleFromEmotions cfg emotions mb ≠ .error .assertionError := by
  unfold assembleFromEmotions
  split
  · simp
  · rename_i dom hmax
    split
    · simp
    · rename_i conf hget
      split
      · simp
      · rename_i hge
        obtain ⟨qq, hqmem, _, hqv⟩ := dictGet?_mem hget
        obtain ⟨h0, h1⟩ := hq qq hqmem
        obtain ⟨r1, r2, r3, r4, r5, r6⟩ := visionVad_range dom.1
        rw [mkPercept_ok ⟨r1, r2⟩ ⟨r3, r4⟩ ⟨r5, r6⟩ ⟨hqv ▸ h0, hqv ▸ h1⟩]
        simp

/-- No assertion fires in a per-face slot when every probability the
classifier can return for this box is in `[0, 1]`. -/
theorem perceiveOneFace_no_assert {cfg : Config} {total : Nat}
    {lm : Option (List Unit)} {classify : BBox → Except Unit (List Dist)}
    {i : Nat} {b : BBox}
    (hcls : ∀ l, classify b = .ok l → ∀ d ∈ l, ∀ q ∈ d, 0 ≤ q.2 ∧ q.2 ≤ 1) :
    perceiveOneFace cfg total lm classify i b ≠ .error .assertionError := by
  unfold perceiveOneFace
  split
  · simp
  · simp
  · rename_i d t hct
    exact assemble_no_assert (fun q hq => hcls _ hct d (List.mem_cons_self _ _) q hq)

/-- No assertion fires anywhere in the per-face loop under the same
probability hypothesis. -/
theorem perceiveFacesLoop_no_assert {cfg : Config} {total : Nat}
    {lm : Option (List Unit)} {classify : BBox → Except Unit (List Dist)}
    (hcls : ∀ b l, classify b = .ok l → ∀ d ∈ l, ∀ q ∈ d, 0 ≤ q.2 ∧ q.2 ≤ 1)
    (fs : List BBox) :
    ∀ i, perceiveFacesLoop cfg total lm classify i fs ≠ .error .assertionError := by
  induction fs with
  | nil => intro i; simp [perceiveFacesLoop]
  | cons b bs ih =>
    intro i
    simp only [perceiveFacesLoop]
    split
    · rename_i e hone
      intro hco
      injection hco with he
      exact perceiveOneFace_no_assert (fun l hl => hcls b l hl) (he ▸ hone)
    · rename_i p hone
      split
      · rename_i e hloop
        intro hco
        injection hco with he
        exact ih (i + 1) (he ▸ hloop)
      · simp

/-! ### Claim theorems -/

/-- Claim C7: the discrete-emotion-to-AffectCoordinate mapping of the
perceptor is a total deterministic (pure) function: every label
outside the seven-label vocabulary gets the default coordinate
`(0.0, 0.5, 0.0)`, and each vocabulary label gets its fixed table
coordinate; no input fails. -/
theorem affect_mapper_total :
    (∀ l, l ∉ emotionVocab → visionEmotionToVad l = (0, 0.5, 0)) ∧
    visionEmotionToVad ("happy") = (0.8, 0.7, 0.5) ∧
    visionEmotionToVad ("sad") = (-0.7, 0.3, -0.3) ∧
    visionEmotionToVad ("angry") = (-0.8, 0.9, 0.7) ∧
    visionEmotionToVad ("neutral") = (0, 0.4, 0) ∧
    visionEmotionToVad ("surprise") = (0.4, 0.9, -0.2) ∧
    visionEmotionToVad ("fear") = (-0.6, 0.8, -0.5) ∧
    visionEmotionToVad ("disgust") = (-0.6, 0.5, 0.2) :=
  ⟨fun _ hl => visionVad_default_of_not_mem hl, rfl, rfl, rfl, rfl, rfl, rfl, rfl⟩

/-- Witness for C7 at the out-of-vocabulary label `smile`. -/
theorem affect_mapper_total_witness :
    ("smile") ∉ emotionVocab ∧ visionEmotionToVad ("smile") = (0, 0.5, 0) :=
  ⟨by decide, affect_mapper_total.1 ("smile") (by decide)⟩

/-- Claim C10: the perceptor's private string-keyed emotion→VAD table
agrees with the affect module's enum-keyed mapping on every member of
the seven-label vocabulary, every vocabulary label is covered by an
enum member, and the two default coordinates coincide at
`(0.0, 0.5, 0.0)`. -/
theorem vad_tables_equivalent :
    (∀ c : EmotionCategory, visionEmotionToVad c.value = emotion_to_vad c) ∧
    (∀ l ∈ emotionVocab, ∃ c : EmotionCategory, c.value = l) ∧
    (∀ l, l ∉ emotionVocab → visionEmotionToVad l = visionVadDefault) ∧
    visionVadDefault = affectVadDefault ∧ affectVadDefault = (0, 0.5, 0) := by
  refine ⟨?_, ?_, fun _ hl => visionVad_default_of_not_mem hl, rfl, rfl⟩
  · intro c
    cases c <;> rfl
  · intro l hl
    simp only [emotionVocab, List.mem_cons, List.not_mem_nil, or_false] at hl
    rcases hl with rfl | rfl | rfl | rfl | rfl | rfl | rfl
    exacts [⟨.happy, rfl⟩, ⟨.sad, rfl⟩, ⟨.angry, rfl⟩, ⟨.neutral, rfl⟩,
      ⟨.surprise, rfl⟩, ⟨.fear, rfl⟩, ⟨.disgust, rfl⟩]

/-- Witness for C10 at `happy` and at the unmapped label `grin`. -/
theorem vad_tables_equivalent_witness :
    visionEmotionToVad (EmotionCategory.happy.value) = emotion_to_vad .happy ∧
    (("sad") ∈ emotionVocab ∧ ∃ c : EmotionCategory, c.value = ("sad")) ∧
    ("grin") ∉ emotionVocab ∧ visionEmotionToVad ("grin") = visionVadDefault :=
  ⟨vad_tables_equivalent.1 .happy,
   ⟨by decide, vad_tables_equivalent.2.1 ("sad") (by decide)⟩,
   by decide, vad_tables_equivalent.2.2.1 ("grin") (by decide)⟩

/-- Claim C8: `release` is idempotent — the first call clears the
capture handle to `None`, the second call changes nothing and does not
touch the underlying device — for every state (camera ever opened or
not), and the same `release` is what `__exit__` and `__del__`
invoke. -/
theorem release_idempotent (s : VPState) :
    s.release.1.release.1 = s.release.1 ∧
    s.release.1.release.2 = false ∧
    s.release.1.cap = none ∧
    s.exitCtx = (s.release, false) ∧
    s.delObj = s.release := by
  obtain ⟨cid, mp, lmk, mc, cap⟩ := s
  cases cap <;> simp [VPState.release, VPState.exitCtx, VPState.delObj]

/-- Counterexample to C3 as stated ("for every frame and every raw
detector output"): a raw MediaPipe box with origin beyond the frame is
clamped to negative width, and the Haar path returns its raw boxes
unclamped, so a raw box with negative origin is returned as-is. -/
theorem bbox_clamp_counterexample :
    detectFacesMediapipe 10 10 [(20, 0, 5, 5)] = [⟨20, 0, -10, 5⟩] ∧
    ¬ (0 ≤ (BBox.mk 20 0 (-10) 5).w) ∧
    detectFacesHaar [(-1, 2, 5, 5)] = [⟨-1, 2, 5, 5⟩] ∧
    ¬ (0 ≤ (BBox.mk (-1) 2 5 5).x) := by
  decide

/-- Claim C3 (amended): on the MediaPipe path, `0 ≤ x`, `0 ≤ y`,
`x + w ≤ W` and `y + h ≤ H` hold for every raw detector output, while
`w ≥ 0` and `h ≥ 0` additionally require the raw size to be
nonnegative and the raw origin to lie within the frame; the Haar path
returns the cascade's raw boxes unmodified, so its boxes satisfy the
bounds exactly when the raw boxes already do. -/
theorem bbox_clamp_amended (W H rx ry rw rh : Int) :
    (0 ≤ (clampBoxMp W H rx ry rw rh).x ∧ 0 ≤ (clampBoxMp W H rx ry rw rh).y ∧
     (clampBoxMp W H rx ry rw rh).x + (clampBoxMp W H rx ry rw rh).w ≤ W ∧
     (clampBoxMp W H rx ry rw rh).y + (clampBoxMp W H rx ry rw rh).h ≤ H) ∧
    (0 ≤ W → 0 ≤ rw → rx ≤ W → 0 ≤ (clampBoxMp W H rx ry rw rh).w) ∧
    (0 ≤ H → 0 ≤ rh → ry ≤ H → 0 ≤ (clampBoxMp W H rx ry rw rh).h) ∧
    (∀ raw, detectFacesHaar raw = raw.map (fun r => ⟨r.1, r.2.1, r.2.2.1, r.2.2.2⟩)) := by
  refine ⟨?_, ?_, ?_, fun raw => rfl⟩
  · simp only [clampBoxMp]
    omega
  · intro h1 h2 h3
    simp only [clampBoxMp]
    omega
  · intro h1 h2 h3
    simp only [clampBoxMp]
    omega

/-- Witness for C3 (amended) on an in-frame raw box. -/
theorem bbox_clamp_amended_witness :
    ((0 : Int) ≤ 100 ∧ (0 : Int) ≤ 30 ∧ (10 : Int) ≤ 100) ∧
    0 ≤ (clampBoxMp 100 80 10 10 30 30).w :=
  ⟨⟨by decide, by decide, by decide⟩,
   (bbox_clamp_amended 100 80 10 10 30 30).2.1 (by decide) (by decide) (by decide)⟩

/-- Counterexample to C4 as stated: on a frame whose crop
classification is empty but whose full-frame classification yields a
confident emotion, the single-face path retries on the full frame and
produces a percept, while the multi-face per-face path for the same
crop-empty condition yields absence immediately — `perceive_all_faces`
performs no full-frame retry at all (`human_face.py:614-618` appends
`None` and continues). -/
theorem retry_counterexample :
    perceive ⟨true, false, 3/10⟩ [⟨0, 0, 10, 10⟩] none (.ok [])
        (.ok [[(("happy"), (9 : ℚ)/10), (("sad"), 1/10)]]) =
      .ok (some ⟨("vision"), 0.8, 0.7, 0.5, 9/10,
        ⟨("happy"), [(("happy"), 9/10), (("sad"), 1/10)], ⟨0, 0, 10, 10⟩,
         some 1, none, none, ("mediapipe"), false⟩⟩) ∧
    perceiveAllFaces ⟨true, false, 3/10⟩ [⟨0, 0, 10, 10⟩] 5 none (fun _ => .ok []) =
      .ok [none] := by
  constructor
  · norm_num [perceive, assembleFromEmotions, pyMaxByVal, dictGet?, mkPercept,
      singleMetaBase, MetaBase.toMeta, visionEmotionToVad, detectorName, List.find?]
  · norm_num [perceiveAllFaces, perceiveFacesLoop, perceiveOneFace]

/-- Claim C4 (amended): the single full-frame retry exists only in
`perceive` — there, an empty crop classification makes the call behave
exactly as if the full-frame result had been the crop result (one
retry, nothing further) — while in `perceive_all_faces` an empty crop
classification yields absence for that face immediately, with no
retry. -/
theorem retry_amended :
    (∀ (cfg : Config) (b : BBox) (bs : List BBox) (lm : Option (List Unit))
        (cf : Except Unit (List Dist)),
      perceive cfg (b :: bs) lm (.ok []) cf = perceive cfg (b :: bs) lm cf (.ok [])) ∧
    (∀ (cfg : Config) (total : Nat) (lm : Option (List Unit))
        (classify : BBox → Except Unit (List Dist)) (i : Nat) (b : BBox),
      classify b = .ok [] → perceiveOneFace cfg total lm classify i b = .ok none) := by
  constructor
  · intro cfg b bs lm cf
    cases cf with
    | error e => rfl
    | ok l =>
      cases l with
      | nil => rfl
      | cons d t => rfl
  · intro cfg total lm classify i b h
    unfold perceiveOneFace
    rw [h]

/-- Witness for C4 (amended): a per-face slot with empty crop
classification is absent. -/
theorem retry_amended_witness :
    perceiveOneFace ⟨true, false, 3/10⟩ 1 none (fun _ => .ok []) 0 ⟨0, 0, 10, 10⟩ =
      .ok none :=
  retry_amended.2 ⟨true, false, 3/10⟩ 1 none (fun _ => .ok []) 0 ⟨0, 0, 10, 10⟩ rfl

/-- Claim C5: the acceptance bound is inclusive, in both entry points:
when classification succeeds and the best-label probability (over a
unique-keyed, in-range distribution) equals `min_confidence` exactly, a
percept carrying that confidence is produced; strictly below the bound
the face yields absence. -/
theorem threshold_inclusive :
    (∀ (cfg : Config) (b : BBox) (bs : List BBox) (lm : Option (List Unit))
        (d : Dist) (t : List Dist) (cf : Except Unit (List Dist)) (k : String) (c : ℚ),
      (d.map Prod.fst).Nodup → pyMaxByVal d = some (k, c) →
      ((c = cfg.minConfidence → 0 ≤ c → c ≤ 1 →
        ∃ p, perceive cfg (b :: bs) lm (.ok (d :: t)) cf = .ok (some p) ∧
          p.confidence = c) ∧
       (c < cfg.minConfidence →
        perceive cfg (b :: bs) lm (.ok (d :: t)) cf = .ok none))) ∧
    (∀ (cfg : Config) (total : Nat) (lm : Option (List Unit))
        (classify : BBox → Except Unit (List Dist)) (i : Nat) (b : BBox)
        (d : Dist) (t : List Dist) (k : String) (c : ℚ),
      classify b = .ok (d :: t) →
      (d.map Prod.fst).Nodup → pyMaxByVal d = some (k, c) →
      ((c = cfg.minConfidence → 0 ≤ c → c ≤ 1 →
        ∃ p, perceiveOneFace cfg total lm classify i b = .ok (some p) ∧
          p.confidence = c) ∧
       (c < cfg.minConfidence →
        perceiveOneFace cfg total lm classify i b = .ok none))) := by
  constructor
  · intro cfg b bs lm d t cf k c hnd hmax
    have hsp := assemble_threshold cfg (singleMetaBase cfg (b :: bs) b lm) hnd hmax
    constructor
    · intro heq h0 h1
      obtain ⟨p, hp, hc⟩ := hsp.1 (by rw [heq]; exact lt_irrefl _) h0 h1
      exact ⟨p, hp, hc⟩
    · intro hlt
      exact hsp.2 hlt
  · intro cfg total lm classify i b d t k c hcls hnd hmax
    have hsp := assemble_threshold cfg (faceMetaBase cfg total lm i b) hnd hmax
    constructor
    · intro heq h0 h1
      obtain ⟨p, hp, hc⟩ := hsp.1 (by rw [heq]; exact lt_irrefl _) h0 h1
      refine ⟨p, ?_, hc⟩
      unfold perceiveOneFace
      rw [hcls]
      exact hp
    · intro hlt
      unfold perceiveOneFace
      rw [hcls]
      exact hsp.2 hlt

/-- Witness for C5: a best-label probability exactly at the threshold
`3/10` is accepted; `29/100` (below it) is discarded. -/
theorem threshold_inclusive_witness :
    (([(("sad"), (3 : ℚ)/10)].map Prod.fst).Nodup ∧
     pyMaxByVal [(("sad"), (3 : ℚ)/10)] = some (("sad"), 3/10) ∧
     (0 : ℚ) ≤ 3/10 ∧ (3 : ℚ)/10 ≤ 1 ∧ (29 : ℚ)/100 < 3/10) ∧
    (∃ p, perceive ⟨true, false, 3/10⟩ [⟨0, 0, 10, 10⟩] none
        (.ok [[(("sad"), (3 : ℚ)/10)]]) (.ok []) = .ok (some p) ∧
      p.confidence = 3/10) ∧
    perceive ⟨true, false, 3/10⟩ [⟨0, 0, 10, 10⟩] none
        (.ok [[(("sad"), (29 : ℚ)/100)]]) (.ok []) = .ok none := by
  refine ⟨⟨by simp, rfl, by norm_num, by norm_num, by norm_num⟩, ?_, ?_⟩
  · exact (threshold_inclusive.1 ⟨true, false, 3/10⟩ ⟨0, 0, 10, 10⟩ [] none
      [(("sad"), (3 : ℚ)/10)] [] (.ok []) ("sad") (3/10) (by simp) rfl).1
      rfl (by norm_num) (by norm_num)
  · exact (threshold_inclusive.1 ⟨true, false, 3/10⟩ ⟨0, 0, 10, 10⟩ [] none
      [(("sad"), (29 : ℚ)/100)] [] (.ok []) ("sad") (29/100) (by simp) rfl).2
      (by norm_num)

/-- Counterexample to C6 as stated: an initialization error of the
primary detector that is not an `AttributeError` of the legacy
`mp.solutions` attempt (modelled by `LegacyOutcome.otherError`) is not
caught by `except AttributeError` (`human_face.py:136`), so the
constructor raises instead of silently selecting Haar. -/
theorem fallback_counterexample :
    initVP 0 true true (3/10) ⟨true, .otherError, true, true, true, true⟩ =
      .error .initError := rfl

/-- Claim C6 (amended): when the legacy-API attempt fails with
`AttributeError` and the tasks-API attempt fails (its required model
asset missing, or its detector creation raising), the constructor does
not raise: it silently records the Haar strategy
(`use_mediapipe = False`), and every percept subsequently produced by
either entry point reports detector identity `haar`, never
`mediapipe`. -/
theorem fallback_amended (cid : Int) (useLm : Bool) (minConf : ℚ) (env : InitEnv)
    (hav : env.mediapipeAvailable = true) (hleg : env.legacy = .attrError)
    (hfail : env.assetFound = false ∨ env.tasksCreateOk = false)
    (hfer : env.ferOk = true) :
    ∃ s, initVP cid true useLm minConf env = .ok s ∧ s.useMediapipe = false ∧
      (∀ faces lm cc cf p, perceive s.config faces lm cc cf = .ok (some p) →
        p.metadata.detector = ("haar")) ∧
      (∀ faces maxFaces lm classify res p,
        perceiveAllFaces s.config faces maxFaces lm classify = .ok res →
        some p ∈ res → p.metadata.detector = ("haar")) := by
  have hcond : (env.assetFound && env.tasksCreateOk) = false := by
    rcases hfail with h | h <;> simp [h]
  refine ⟨⟨cid, false, (useLm && env.mediapipeAvailable) && env.landmarkerOk,
    minConf, none⟩, ?_, rfl, ?_, ?_⟩
  · unfold initVP
    simp [hav, hleg, hcond, hfer]
  · intro faces lm cc cf p h
    exact perceive_detector h
  · intro faces maxFaces lm classify res p h hmem
    exact perceiveAllFaces_detector h hmem

/-- Witness for C6 (amended): a concrete missing-asset environment
yields a constructed perceptor with the Haar strategy recorded. -/
theorem fallback_amended_witness :
    ∃ s, initVP 0 true true (3/10) ⟨true, .attrError, false, true, true, true⟩ =
      .ok s ∧ s.useMediapipe = false := by
  obtain ⟨s, h1, h2, -, -⟩ := fallback_amended 0 true (3/10)
    ⟨true, .attrError, false, true, true, true⟩ rfl rfl (Or.inl rfl) rfl
  exact ⟨s, h1, h2⟩

/-- Claim C1: for every percept produced by either entry point (over
unique-keyed classifier distributions, the Python dict invariant), the
`confidence` field equals the probability the attached full
distribution (`metadata["all_emotions"]`) assigns to the metadata's
`dominant_emotion` label, and that label is an arg-max of the attached
distribution. -/
theorem percept_confidence_argmax :
    (∀ (cfg : Config) (faces : List BBox) (lm : Option (List Unit))
        (cc cf : Except Unit (List Dist)) (p : Percept),
      (∀ l, cc = .ok l → ∀ d ∈ l, (d.map Prod.fst).Nodup) →
      (∀ l, cf = .ok l → ∀ d ∈ l, (d.map Prod.fst).Nodup) →
      perceive cfg faces lm cc cf = .ok (some p) →
      dictGet? p.metadata.allEmotions p.metadata.dominantEmotion = some p.confidence ∧
      ∀ q ∈ p.metadata.allEmotions, q.2 ≤ p.confidence) ∧
    (∀ (cfg : Config) (faces : List BBox) (maxFaces : Nat) (lm : Option (List Unit))
        (classify : BBox → Except Unit (List Dist)) (res : List (Option Percept))
        (p : Percept),
      (∀ b l, classify b = .ok l → ∀ d ∈ l, (d.map Prod.fst).Nodup) →
      perceiveAllFaces cfg faces maxFaces lm classify = .ok res → some p ∈ res →
      dictGet? p.metadata.allEmotions p.metadata.dominantEmotion = some p.confidence ∧
      ∀ q ∈ p.metadata.allEmotions, q.2 ≤ p.confidence) := by
  constructor
  · intro cfg faces lm cc cf p hcc hcf h
    obtain ⟨f0, fs, d, hfaces, hsrc, ha⟩ := perceive_ok_some_inv h
    have hnd : (d.map Prod.fst).Nodup := by
      rcases hsrc with ⟨t, hct⟩ | ⟨-, t, hct⟩
      · exact hcc _ hct d (List.mem_cons_self _ _)
      · exact hcf _ hct d (List.mem_cons_self _ _)
    exact assemble_confidence_argmax hnd ha
  · intro cfg faces maxFaces lm classify res p hcls h hmem
    rw [perceiveAllFaces_eq_loop] at h
    obtain ⟨-, hidx⟩ := perceiveFacesLoop_spec cfg _ _ classify _ 0 res h
    obtain ⟨j, hj⟩ := List.get?_of_mem hmem
    obtain ⟨b, -, hone⟩ := hidx j _ hj
    obtain ⟨d, t, hct, ha⟩ := perceiveOneFace_ok_some_inv hone
    exact assemble_confidence_argmax (hcls b _ hct d (List.mem_cons_self _ _)) ha

/-- Witness for C1 on a concrete single-face run with distribution
`[happy ↦ 9/10, sad ↦ 1/10]`. -/
theorem percept_confidence_argmax_witness :
    dictGet? [(("happy"), (9 : ℚ)/10), (("sad"), 1/10)] ("happy") = some (9/10) ∧
    ∀ q ∈ [(("happy"), (9 : ℚ)/10), (("sad"), 1/10)], q.2 ≤ (9 : ℚ)/10 := by
  have h := percept_confidence_argmax.1 ⟨true, false, 3/10⟩ [⟨0, 0, 10, 10⟩] none
    (.ok [[(("happy"), (9 : ℚ)/10), (("sad"), 1/10)]]) (.ok [])
    ⟨("vision"), 0.8, 0.7, 0.5, 9/10,
      ⟨("happy"), [(("happy"), 9/10), (("sad"), 1/10)], ⟨0, 0, 10, 10⟩,
       some 1, none, none, ("mediapipe"), false⟩⟩
    ?_ ?_ ?_
  · exact h
  · intro l hl d hd
    injection hl with hl
    subst hl
    simp only [List.mem_singleton] at hd
    subst hd
    simp
  · intro l hl d hd
    injection hl with hl
    subst hl
    cases hd
  · norm_num [perceive, assembleFromEmotions, pyMaxByVal, dictGet?, mkPercept,
      singleMetaBase, MetaBase.toMeta, visionEmotionToVad, detectorName, List.find?]

/-- Claim C2: whenever `perceive_all_faces` returns a list, its length
equals the number of located faces after truncation to `max_faces`,
and slot `i` is exactly the outcome of the per-face pipeline on
located face `i` — a percept built from face `i`'s box (carrying
`face_index = i`), or an explicit absence when that face's
classification raised, returned nothing, or fell below the threshold;
per-face failures never shorten or reorder the list. -/
theorem allfaces_alignment (cfg : Config) (faces : List BBox) (maxFaces : Nat)
    (lm : Option (List Unit)) (classify : BBox → Except Unit (List Dist))
    (res : List (Option Percept))
    (hres : perceiveAllFaces cfg faces maxFaces lm classify = .ok res) :
    res.length = (faces.take maxFaces).length ∧
    ∀ i r, res.get? i = some r → ∃ b, (faces.take maxFaces).get? i = some b ∧
      perceiveOneFace cfg (faces.take maxFaces).length
        (if cfg.useLandmarks then lm else none) classify i b = .ok r ∧
      (∀ p, r = some p → p.metadata.boundingBox = b ∧ p.metadata.faceIndex = some i) ∧
      (r = none → (∃ e, classify b = .error e) ∨ classify b = .ok [] ∨
        ∃ d t dom conf, classify b = .ok (d :: t) ∧ pyMaxByVal d = some dom ∧
          dictGet? d dom.1 = some conf ∧ conf < cfg.minConfidence) := by
  rw [perceiveAllFaces_eq_loop] at hres
  obtain ⟨hlen, hidx⟩ := perceiveFacesLoop_spec cfg _ _ classify _ 0 res hres
  refine ⟨hlen, ?_⟩
  intro i r hr
  obtain ⟨b, hb, hone⟩ := hidx i r hr
  rw [Nat.zero_add] at hone
  refine ⟨b, hb, hone, ?_, ?_⟩
  · rintro p rfl
    obtain ⟨d, t, -, ha⟩ := perceiveOneFace_ok_some_inv hone
    obtain ⟨dom, conf, -, -, -, hp⟩ := assemble_ok_some_inv ha
    subst hp
    exact ⟨rfl, rfl⟩
  · rintro rfl
    exact perceiveOneFace_ok_none_inv hone

/-- Witness for C2 on a two-face frame where face 0 classifies
confidently and face 1 yields nothing: the result has one slot per
located face. -/
theorem allfaces_alignment_witness :
    ([some ⟨("vision"), 0.8, 0.7, 0.5, 9/10,
        ⟨("happy"), [(("happy"), (9 : ℚ)/10)], ⟨0, 0, 10, 10⟩,
         none, some 0, some 2, ("mediapipe"), false⟩⟩, none] :
      List (Option Percept)).length =
    (([⟨0, 0, 10, 10⟩, ⟨5, 5, 3, 3⟩] : List BBox).take 5).length := by
  have h := allfaces_alignment ⟨true, false, 3/10⟩ [⟨0, 0, 10, 10⟩, ⟨5, 5, 3, 3⟩] 5 none
    (fun b => if b.x = 0 then .ok [[(("happy"), (9 : ℚ)/10)]] else .ok [])
    [some ⟨("vision"), 0.8, 0.7, 0.5, 9/10,
      ⟨("happy"), [(("happy"), 9/10)], ⟨0, 0, 10, 10⟩,
       none, some 0, some 2, ("mediapipe"), false⟩⟩, none]
    (by norm_num [perceiveAllFaces, perceiveFacesLoop, perceiveOneFace,
      assembleFromEmotions, pyMaxByVal, dictGet?, mkPercept, faceMetaBase,
      MetaBase.toMeta, visionEmotionToVad, detectorName, List.find?])
  exact h.1

/-- Claim C9 (implicit): every percept the vision path produces takes
its VAD hints from the fixed table (or its default), and under the
hypothesis that every classifier probability lies in `[0, 1]`, the
range assertions of `Percept.__post_init__` never fire on either entry
point — the `AssertionError` branch is unreachable. -/
theorem percept_assertions_unreachable :
    (∀ l : String, visionEmotionToVad l ∈ visionVadValues ∨
      visionEmotionToVad l = visionVadDefault) ∧
    (∀ (cfg : Config) (faces : List BBox) (lm : Option (List Unit))
        (cc cf : Except Unit (List Dist)) (p : Percept),
      perceive cfg faces lm cc cf = .ok (some p) →
      (p.valenceHint, p.arousalHint, p.dominanceHint) =
        visionEmotionToVad p.metadata.dominantEmotion) ∧
    (∀ (cfg : Config) (faces : List BBox) (lm : Option (List Unit))
        (cc cf : Except Unit (List Dist)),
      (∀ l, cc = .ok l → ∀ d ∈ l, ∀ q ∈ d, 0 ≤ q.2 ∧ q.2 ≤ 1) →
      (∀ l, cf = .ok l → ∀ d ∈ l, ∀ q ∈ d, 0 ≤ q.2 ∧ q.2 ≤ 1) →
      perceive cfg faces lm cc cf ≠ .error .assertionError) ∧
    (∀ (cfg : Config) (faces : List BBox) (maxFaces : Nat) (lm : Option (List Unit))
        (classify : BBox → Except Unit (List Dist)),
      (∀ b l, classify b = .ok l → ∀ d ∈ l, ∀ q ∈ d, 0 ≤ q.2 ∧ q.2 ≤ 1) →
      perceiveAllFaces cfg faces maxFaces lm classify ≠ .error .assertionError) := by
  refine ⟨visionVad_table_or_default, ?_, ?_, ?_⟩
  · intro cfg faces lm cc cf p h
    obtain ⟨f0, fs, d, -, -, ha⟩ := perceive_ok_some_inv h
    obtain ⟨dom, conf, -, -, -, hp⟩ := assemble_ok_some_inv ha
    subst hp
    rfl
  · intro cfg faces lm cc cf hcc hcf
    cases faces with
    | nil => simp [perceive]
    | cons f0 fs =>
      cases cc with
      | error e => simp [perceive]
      | ok el =>
        cases el with
        | nil =>
          cases cf with
          | error e => simp [perceive]
          | ok el2 =>
            cases el2 with
            | nil => simp [perceive]
            | cons d t =>
              have heq : perceive cfg (f0 :: fs) lm (.ok []) (.ok (d :: t)) =
                  assembleFromEmotions cfg d (singleMetaBase cfg (f0 :: fs) f0 lm) := rfl
              rw [heq]
              exact assemble_no_assert
                (fun q hq => hcf _ rfl d (List.mem_cons_self _ _) q hq)
        | cons d t =>
          have heq : perceive cfg (f0 :: fs) lm (.ok (d :: t)) cf =
              assembleFromEmotions cfg d (singleMetaBase cfg (f0 :: fs) f0 lm) := rfl
          rw [heq]
          exact assemble_no_assert
            (fun q hq => hcc _ rfl d (List.mem_cons_self _ _) q hq)
  · intro cfg faces maxFaces lm classify hcls
    rw [perceiveAllFaces_eq_loop]
    exact perceiveFacesLoop_no_assert hcls _ 0

/-- Witness for C9 on a concrete in-range classifier output. -/
theorem percept_assertions_unreachable_witness :
    perceive ⟨true, false, 3/10⟩ [⟨0, 0, 10, 10⟩] none
        (.ok [[(("happy"), (9 : ℚ)/10)]]) (.ok []) ≠ .error .assertionError := by
  refine percept_assertions_unreachable.2.2.1 _ _ _ _ _ ?_ ?_
  · intro l hl d hd q hq
    injection hl with hl
    subst hl
    simp only [List.mem_singleton] at hd
    subst hd
    simp only [List.mem_singleton] at hq
    subst hq
    norm_num
  · intro l hl d hd
    injection hl with hl
    subst hl
    cases hd

end Aico
